import Mathlib

/-!
Shallow embedding of the core reactive runtime of mobservable (MobX):
dependency rebinding (`bindDependencies`, `clearObserving`), the
stale/ready counters (`notifyDependencyStale`, `notifyDependencyReady`),
the tracking protocol (`trackDerivedFunction`, `untracked`), the reaction
scheduler (`runReactions`, `Reaction.schedule`, `Reaction.runReaction`,
`Reaction.dispose`, `Reaction.track`).

Observables are identified by `Nat` ids.  We study one fixed derivation
`D` at a time, so the per-observable state carries its `diffValue` scratch
field and whether `D` sits in its observer set.
-/

namespace Mobx

/-- Per-observable state relevant to the diffing algorithm: the
`diffValue` scratch field of the observable and whether the fixed
derivation `D` under study is a member of its observer set. -/
structure ObsState where
  diffValue : Int
  hasD : Bool
  deriving Repr, DecidableEq

/-- Global map from observable ids to their state. -/
abbrev GState := Nat → ObsState

/-- Writes the `diffValue` field of observable `a` (as in `dep.diffValue = v`). -/
def setDiff (st : GState) (a : Nat) (v : Int) : GState :=
  fun x => if x = a then { st a with diffValue := v } else st x

/-- Modelled from the spec: `add-observer(d)` maintains the observer set
(`core/observable.ts` and the `SimpleSet` it uses are not under src/); for
the single tracked derivation this sets the membership bit. -/
def addObserver (st : GState) (a : Nat) : GState :=
  fun x => if x = a then { st a with hasD := true } else st x

/-- Modelled from the spec: `remove-observer(d)` maintains the observer
set (`core/observable.ts` is not under src/); this clears the membership
bit of the tracked derivation. -/
def removeObserver (st : GState) (a : Nat) : GState :=
  fun x => if x = a then { st a with hasD := false } else st x

/-- First loop of `bindDependencies` (core/derivation.ts): mark every
element of `prevObserving` with `diffValue = -1`. -/
def markPrev (prev : List Nat) (st : GState) : GState :=
  prev.foldl (fun s p => setDiff s p (-1)) st

/-- Body of the second loop of `bindDependencies`:
`if ((++dep.diffValue) > 0) { dep.diffValue = 0; addObserver(dep, derivation); }`. -/
def bindStep (st : GState) (dep : Nat) : GState :=
  let st1 := setDiff st dep ((st dep).diffValue + 1)
  if (st1 dep).diffValue > 0 then addObserver (setDiff st1 dep 0) dep else st1

/-- Second loop of `bindDependencies`: walk the new `observing` list. -/
def bindNew (observing : List Nat) (st : GState) : GState :=
  observing.foldl bindStep st

/-- Body of the third loop of `bindDependencies`:
`if (dep.diffValue < 0) { dep.diffValue = 0; removeObserver(dep, derivation); }`. -/
def unbindStep (st : GState) (dep : Nat) : GState :=
  if (st dep).diffValue < 0 then removeObserver (setDiff st dep 0) dep else st

/-- Third loop of `bindDependencies`: drop the stale entries of `prevObserving`. -/
def unbindOld (prev : List Nat) (st : GState) : GState :=
  prev.foldl unbindStep st

/-- Embeds `bindDependencies(derivation, prevObserving)` from
core/derivation.ts (src/unnamed/part_002): given the previous observing
list, the new (already trimmed) observing list and the observable states,
returns the updated observable states. -/
def bindDependencies (prev observing : List Nat) (st : GState) : GState :=
  unbindOld prev (bindNew observing (markPrev prev st))

/-- Embeds `clearObserving(derivation)` from core/derivation.ts: remove
the derivation from every observed observable's observer set and empty
the observing list.  Returns the new observing list and observable states. -/
def clearObserving (observing : List Nat) (st : GState) : List Nat × GState :=
  ([], observing.foldl removeObserver st)

theorem setDiff_apply_ne (st : GState) (a x : Nat) (v : Int) (h : x ≠ a) :
    setDiff st a v x = st x := by
  simp [setDiff, h]

theorem setDiff_apply_self (st : GState) (a : Nat) (v : Int) :
    setDiff st a v a = { st a with diffValue := v } := by
  simp [setDiff]

theorem markPrev_apply (prev : List Nat) (st : GState) (a : Nat) :
    markPrev prev st a =
      if a ∈ prev then { st a with diffValue := -1 } else st a := by
  induction prev generalizing st with
  | nil => simp [markPrev]
  | cons p rest ih =>
    show markPrev rest (setDiff st p (-1)) a = _
    rw [ih]
    by_cases hmem : a ∈ rest
    · simp only [hmem, if_true, List.mem_cons, or_true, if_true]
      by_cases hp : a = p
      · subst hp; rw [setDiff_apply_self]
      · rw [setDiff_apply_ne st p a (-1) hp]
    · simp only [hmem, if_false, List.mem_cons, or_false]
      by_cases hp : a = p
      · subst hp; rw [setDiff_apply_self]; simp
      · rw [setDiff_apply_ne st p a (-1) hp]; simp [hp]

theorem bindStep_apply_ne (st : GState) (dep x : Nat) (h : x ≠ dep) :
    bindStep st dep x = st x := by
  by_cases hc : (st dep).diffValue + 1 > 0 <;>
    simp [bindStep, setDiff, addObserver, h, hc]

theorem bindStep_apply_self (st : GState) (dep : Nat) :
    bindStep st dep dep =
      if (st dep).diffValue + 1 > 0 then ⟨0, true⟩
      else ⟨(st dep).diffValue + 1, (st dep).hasD⟩ := by
  by_cases hc : (st dep).diffValue + 1 > 0 <;>
    simp [bindStep, setDiff, addObserver, hc]

theorem bindNew_apply_not_mem (observing : List Nat) (st : GState) (a : Nat)
    (h : a ∉ observing) : bindNew observing st a = st a := by
  induction observing generalizing st with
  | nil => rfl
  | cons d rest ih =>
    show bindNew rest (bindStep st d) a = _
    have hd : a ≠ d := fun had => h (had ▸ List.mem_cons_self d rest)
    rw [ih (bindStep st d) (fun hmem => h (List.mem_cons_of_mem d hmem)),
      bindStep_apply_ne st d a hd]

theorem bindNew_apply_mem (observing : List Nat) (st : GState) (a : Nat)
    (hmem : a ∈ observing)
    (h : (st a).diffValue = 0 ∨ ((st a).diffValue = -1 ∧ (st a).hasD = true)) :
    bindNew observing st a = ⟨0, true⟩ := by
  induction observing generalizing st with
  | nil => cases hmem
  | cons d rest ih =>
    show bindNew rest (bindStep st d) a = _
    by_cases hd : a = d
    · subst hd
      have hstep : bindStep st a a = ⟨0, true⟩ := by
        rw [bindStep_apply_self]
        rcases h with h0 | ⟨hm1, htrue⟩
        · rw [h0]; norm_num
        · rw [hm1, htrue]; norm_num
      by_cases hrest : a ∈ rest
      · exact ih (bindStep st a) hrest (by rw [hstep]; left; rfl)
      · rw [bindNew_apply_not_mem rest (bindStep st a) a hrest, hstep]
    · have hrest : a ∈ rest := by
        cases List.mem_cons.mp hmem with
        | inl h1 => exact absurd h1 hd
        | inr h2 => exact h2
      exact ih (bindStep st d) hrest
        (by rw [bindStep_apply_ne st d a hd]; exact h)

theorem bindNew_diff_mem (observing : List Nat) (st : GState) (a : Nat)
    (hmem : a ∈ observing)
    (h : (st a).diffValue = 0 ∨ (st a).diffValue = -1) :
    (bindNew observing st a).diffValue = 0 := by
  induction observing generalizing st with
  | nil => cases hmem
  | cons d rest ih =>
    show (bindNew rest (bindStep st d) a).diffValue = _
    by_cases hd : a = d
    · subst hd
      have hstep : (bindStep st a a).diffValue = 0 := by
        rw [bindStep_apply_self]
        rcases h with h0 | hm1
        · rw [h0]; norm_num
        · rw [hm1]; norm_num
      by_cases hrest : a ∈ rest
      · exact ih (bindStep st a) hrest (Or.inl hstep)
      · rw [bindNew_apply_not_mem rest (bindStep st a) a hrest]
        exact hstep
    · have hrest : a ∈ rest := by
        cases List.mem_cons.mp hmem with
        | inl h1 => exact absurd h1 hd
        | inr h2 => exact h2
      exact ih (bindStep st d) hrest
        (by rw [bindStep_apply_ne st d a hd]; exact h)

theorem unbindStep_apply_ne (st : GState) (dep x : Nat) (h : x ≠ dep) :
    unbindStep st dep x = st x := by
  by_cases hc : (st dep).diffValue < 0 <;>
    simp [unbindStep, setDiff, removeObserver, h, hc]

theorem unbindStep_apply_self (st : GState) (dep : Nat) :
    unbindStep st dep dep =
      if (st dep).diffValue < 0 then ⟨0, false⟩ else st dep := by
  by_cases hc : (st dep).diffValue < 0 <;>
    simp [unbindStep, setDiff, removeObserver, hc]

theorem unbindOld_apply_not_mem (prev : List Nat) (st : GState) (a : Nat)
    (h : a ∉ prev) : unbindOld prev st a = st a := by
  induction prev generalizing st with
  | nil => rfl
  | cons p rest ih =>
    show unbindOld rest (unbindStep st p) a = _
    have hp : a ≠ p := fun hap => h (hap ▸ List.mem_cons_self p rest)
    rw [ih (unbindStep st p) (fun hmem => h (List.mem_cons_of_mem p hmem)),
      unbindStep_apply_ne st p a hp]

theorem unbindOld_apply_nonneg (prev : List Nat) (st : GState) (a : Nat)
    (h : 0 ≤ (st a).diffValue) : unbindOld prev st a = st a := by
  induction prev generalizing st with
  | nil => rfl
  | cons p rest ih =>
    show unbindOld rest (unbindStep st p) a = _
    by_cases hp : a = p
    · subst hp
      have hstep : unbindStep st a a = st a := by
        rw [unbindStep_apply_self, if_neg (not_lt.mpr h)]
      rw [ih (unbindStep st a) (by rw [hstep]; exact h), hstep]
    · rw [ih (unbindStep st p)
        (by rw [unbindStep_apply_ne st p a hp]; exact h),
        unbindStep_apply_ne st p a hp]

theorem unbindOld_apply_mem_neg (prev : List Nat) (st : GState) (a : Nat)
    (hmem : a ∈ prev) (h : (st a).diffValue < 0) :
    unbindOld prev st a = ⟨0, false⟩ := by
  induction prev generalizing st with
  | nil => cases hmem
  | cons p rest ih =>
    show unbindOld rest (unbindStep st p) a = _
    by_cases hp : a = p
    · subst hp
      have hstep : unbindStep st a a = ⟨0, false⟩ := by
        rw [unbindStep_apply_self, if_pos h]
      rw [unbindOld_apply_nonneg rest (unbindStep st a) a
        (by rw [hstep]), hstep]
    · have hrest : a ∈ rest := by
        cases List.mem_cons.mp hmem with
        | inl h1 => exact absurd h1 hp
        | inr h2 => exact h2
      exact ih (unbindStep st p) hrest
        (by rw [unbindStep_apply_ne st p a hp]; exact h)

theorem removeObserver_fold_apply (observing : List Nat) (st : GState) (a : Nat) :
    observing.foldl removeObserver st a =
      if a ∈ observing then { st a with hasD := false } else st a := by
  induction observing generalizing st with
  | nil => simp
  | cons p rest ih =>
    show List.foldl removeObserver (removeObserver st p) rest a = _
    rw [ih]
    by_cases hmem : a ∈ rest
    · simp only [hmem, if_true, List.mem_cons, or_true, if_true]
      by_cases hp : a = p
      · subst hp; simp [removeObserver]
      · simp [removeObserver, hp]
    · simp only [hmem, if_false, List.mem_cons, or_false]
      by_cases hp : a = p
      · subst hp; simp [removeObserver]
      · simp [removeObserver, hp]

/-- Full pointwise characterization of `bindDependencies` from a state
satisfying the steady invariants: every touched observable ends with
`diffValue = 0` and observer membership exactly on the new observing list;
untouched observables are unchanged. -/
theorem bindDependencies_point (prev observing : List Nat) (st : GState) (a : Nat)
    (hdv : ∀ x, x ∈ observing → x ∉ prev → (st x).diffValue = 0)
    (hobs : ∀ x, (st x).hasD = true ↔ x ∈ prev) :
    bindDependencies prev observing st a =
      if a ∈ prev ∨ a ∈ observing then ⟨0, decide (a ∈ observing)⟩ else st a := by
  unfold bindDependencies
  by_cases hnew : a ∈ observing
  · have hmark : (markPrev prev st a).diffValue = 0 ∨
        ((markPrev prev st a).diffValue = -1 ∧ (markPrev prev st a).hasD = true) := by
      rw [markPrev_apply]
      by_cases hprev : a ∈ prev
      · rw [if_pos hprev]
        exact Or.inr ⟨rfl, (hobs a).mpr hprev⟩
      · rw [if_neg hprev]
        exact Or.inl (hdv a hnew hprev)
    have hfa : bindNew observing (markPrev prev st) a = ⟨0, true⟩ :=
      bindNew_apply_mem observing (markPrev prev st) a hnew hmark
    rw [unbindOld_apply_nonneg prev (bindNew observing (markPrev prev st)) a
      (by rw [hfa]), hfa]
    simp [hnew]
  · have hfa : bindNew observing (markPrev prev st) a = markPrev prev st a :=
      bindNew_apply_not_mem observing (markPrev prev st) a hnew
    by_cases hprev : a ∈ prev
    · have hmark : markPrev prev st a = { st a with diffValue := -1 } := by
        rw [markPrev_apply, if_pos hprev]
      rw [unbindOld_apply_mem_neg prev (bindNew observing (markPrev prev st)) a hprev
        (by rw [hfa, hmark]; norm_num)]
      simp [hprev, hnew]
    · have hmark : markPrev prev st a = st a := by
        rw [markPrev_apply, if_neg hprev]
      rw [unbindOld_apply_not_mem prev (bindNew observing (markPrev prev st)) a hprev,
        hfa, hmark]
      simp [hprev, hnew]

/-- Pointwise diffValue-only characterization of `bindDependencies`: with
clean starting `diffValue`s on the genuinely new dependencies, every
observable in the previous or new observing list ends with `diffValue = 0`
(no observer-set hypothesis needed). -/
theorem bindDependencies_point_diff (prev observing : List Nat) (st : GState) (a : Nat)
    (hdv : ∀ x, x ∈ observing → x ∉ prev → (st x).diffValue = 0)
    (ha : a ∈ prev ∨ a ∈ observing) :
    (bindDependencies prev observing st a).diffValue = 0 := by
  unfold bindDependencies
  by_cases hnew : a ∈ observing
  · have hmark : (markPrev prev st a).diffValue = 0 ∨
        (markPrev prev st a).diffValue = -1 := by
      rw [markPrev_apply]
      by_cases hprev : a ∈ prev
      · rw [if_pos hprev]; exact Or.inr rfl
      · rw [if_neg hprev]; exact Or.inl (hdv a hnew hprev)
    have hbound := bindNew_diff_mem observing (markPrev prev st) a hnew hmark
    rw [unbindOld_apply_nonneg prev (bindNew observing (markPrev prev st)) a
      (by rw [hbound])]
    exact hbound
  · have hprev : a ∈ prev := ha.resolve_right hnew
    have hfa : bindNew observing (markPrev prev st) a = markPrev prev st a :=
      bindNew_apply_not_mem observing (markPrev prev st) a hnew
    have hmark : markPrev prev st a = { st a with diffValue := -1 } := by
      rw [markPrev_apply, if_pos hprev]
    rw [unbindOld_apply_mem_neg prev (bindNew observing (markPrev prev st)) a hprev
      (by rw [hfa, hmark]; norm_num)]

def c1StA : GState := fun x => ⟨0, decide (x = 0)⟩

def c1StC : GState := fun x => ⟨0, decide (x = 2)⟩

/-- Observer-set invariant transfer across `bindDependencies`: afterwards
the derivation observes exactly the new observing list. -/
theorem bindDependencies_hasD_iff (prev observing : List Nat) (st : GState)
    (hdv : ∀ x, x ∈ observing → x ∉ prev → (st x).diffValue = 0)
    (hobs : ∀ x, (st x).hasD = true ↔ x ∈ prev) (a : Nat) :
    ((bindDependencies prev observing st) a).hasD = true ↔ a ∈ observing := by
  rw [bindDependencies_point prev observing st a hdv hobs]
  by_cases ha : a ∈ prev ∨ a ∈ observing
  · rw [if_pos ha]; simp
  · rw [if_neg ha]
    push_neg at ha
    rw [hobs a]
    simp [ha.1, ha.2]

/-- After `clearObserving` the derivation observes nothing. -/
theorem clearObserving_hasD (observing : List Nat) (st : GState)
    (hobs : ∀ x, (st x).hasD = true ↔ x ∈ observing) (b : Nat) :
    ((clearObserving observing st).2 b).hasD = false := by
  show ((observing.foldl removeObserver st) b).hasD = false
  rw [removeObserver_fold_apply]
  by_cases hb : b ∈ observing
  · simp [hb]
  · simp only [hb, if_false]
    cases hB : (st b).hasD with
    | false => rfl
    | true => exact absurd ((hobs b).mp hB) hb

/-- Claim C1: after every completed tracking run (trackDerivedFunction
followed by bindDependencies) and after clearObserving, an observable
belongs to the derivation's observing list iff the derivation belongs to
that observable's observer set.  `prev`/`st` describe the state before a
tracking run whose new observing list is `observing`; `cobserving`/`cst`
describe a derivation about to run clearObserving. -/
theorem c1_observer_symmetry (prev observing cobserving : List Nat)
    (st cst : GState) (a b : Nat)
    (hdv : ∀ x, x ∈ observing → x ∉ prev → (st x).diffValue = 0)
    (hobs : ∀ x, (st x).hasD = true ↔ x ∈ prev)
    (hcobs : ∀ x, (cst x).hasD = true ↔ x ∈ cobserving) :
    ((bindDependencies prev observing st a).hasD = true ↔ a ∈ observing) ∧
    (((clearObserving cobserving cst).2 b).hasD = true ↔
      b ∈ (clearObserving cobserving cst).1) := by
  refine ⟨bindDependencies_hasD_iff prev observing st hdv hobs a, ?_⟩
  rw [clearObserving_hasD cobserving cst hcobs b]
  simp [clearObserving]

theorem c1_observer_symmetry_witness :
    ((bindDependencies [0] [1] c1StA 1).hasD = true ↔ 1 ∈ [1]) ∧
    (((clearObserving [2] c1StC).2 2).hasD = true ↔
      2 ∈ (clearObserving [2] c1StC).1) :=
  c1_observer_symmetry [0] [1] [2] c1StA c1StC 1 2
    (fun _ _ _ => rfl)
    (fun x => by simp [c1StA])
    (fun x => by simp [c1StC])

def c7St : GState := fun _ => ⟨0, false⟩

/-- Claim C7: bindDependencies leaves the diffValue of every observable it
touched (every element of the previous and of the new observing list)
equal to zero, provided the genuinely new dependencies start with a clean
diffValue (which is exactly the state the previous run left behind). -/
theorem c7_diffValue_clean (prev observing : List Nat) (st : GState) (a : Nat)
    (hdv : ∀ x, x ∈ observing → x ∉ prev → (st x).diffValue = 0)
    (ha : a ∈ prev ∨ a ∈ observing) :
    (bindDependencies prev observing st a).diffValue = 0 :=
  bindDependencies_point_diff prev observing st a hdv ha

theorem c7_diffValue_clean_witness :
    (bindDependencies [0] [0, 1, 1] c7St 1).diffValue = 0 :=
  c7_diffValue_clean [0] [0, 1, 1] c7St 1 (fun _ _ _ => rfl) (Or.inr (by simp))

/-- The stale/change counters of a derivation (core/derivation.ts,
`IDerivation`).  Counters are JS numbers used as integers. -/
structure DerivCounters where
  dependencyStaleCount : Int
  dependencyChangeCount : Int
  deriving Repr, DecidableEq

/-- Outcome of `notifyDependencyReady`: the updated counters, whether
`onDependenciesReady()` was invoked, and the `changed` flag passed to
`propagateReadiness` (`none` when readiness was not propagated). -/
structure ReadyResult where
  state : DerivCounters
  invokedOnDependenciesReady : Bool
  propagated : Option Bool
  deriving Repr, DecidableEq

/-- Embeds `notifyDependencyStale(derivation)` from core/derivation.ts:
`if (++derivation.dependencyStaleCount === 1) propagateStaleness(derivation)`.
Returns the updated counters and whether staleness was propagated. -/
def notifyDependencyStale (d : DerivCounters) : DerivCounters × Bool :=
  let d1 : DerivCounters := { d with dependencyStaleCount := d.dependencyStaleCount + 1 }
  (d1, d1.dependencyStaleCount == 1)

/-- Embeds `notifyDependencyReady(derivation, dependencyDidChange)` from
core/derivation.ts.  The call `derivation.onDependenciesReady()` is
abstracted by its boolean result `onReadyResult`; the `invariant` guard
throwing maps to `Except.error`. -/
def notifyDependencyReady (d : DerivCounters) (dependencyDidChange : Bool)
    (onReadyResult : Bool) : Except String ReadyResult :=
  if d.dependencyStaleCount > 0 then
    let d1 : DerivCounters :=
      if dependencyDidChange then
        { d with dependencyChangeCount := d.dependencyChangeCount + 1 }
      else d
    let d2 : DerivCounters := { d1 with dependencyStaleCount := d1.dependencyStaleCount - 1 }
    if d2.dependencyStaleCount = 0 then
      if d2.dependencyChangeCount > 0 then
        Except.ok { state := { d2 with dependencyChangeCount := 0 },
                    invokedOnDependenciesReady := true,
                    propagated := some onReadyResult }
      else
        Except.ok { state := d2,
                    invokedOnDependenciesReady := false,
                    propagated := some false }
    else
      Except.ok { state := d2,
                  invokedOnDependenciesReady := false,
                  propagated := none }
  else
    Except.error "unexpected ready notification"

/-- Claim C2: notifyDependencyReady decrements the stale count and, when
`changed`, increments the change count; readiness is handled exactly when
the stale count reaches zero: with a positive change count it is reset to
zero, onDependenciesReady is invoked and its result is the propagated
changed flag, while with a zero change count readiness is propagated with
`false` and onDependenciesReady is not invoked. -/
theorem c2_notifyDependencyReady_spec (d : DerivCounters)
    (changed onReadyResult : Bool)
    (h1 : 0 < d.dependencyStaleCount) (h2 : 0 ≤ d.dependencyChangeCount) :
    notifyDependencyReady d changed onReadyResult = Except.ok
      { state := { dependencyStaleCount := d.dependencyStaleCount - 1,
                   dependencyChangeCount :=
                     if d.dependencyStaleCount = 1 then 0
                     else d.dependencyChangeCount + (if changed then 1 else 0) },
        invokedOnDependenciesReady :=
          decide (d.dependencyStaleCount = 1) &&
          decide (0 < d.dependencyChangeCount + (if changed then 1 else 0)),
        propagated :=
          if d.dependencyStaleCount = 1 then
            some (if 0 < d.dependencyChangeCount + (if changed then 1 else 0)
                  then onReadyResult else false)
          else none } := by
  unfold notifyDependencyReady
  rw [if_pos h1]
  by_cases hstale : d.dependencyStaleCount = 1
  · have h1' : d.dependencyStaleCount - 1 = 0 := by omega
    cases changed with
    | true =>
      have hc : d.dependencyChangeCount + 1 > 0 := by omega
      simp [hstale, h1', hc]
    | false =>
      by_cases hc : d.dependencyChangeCount > 0
      · simp [hstale, h1', hc]
      · have hc0 : d.dependencyChangeCount = 0 := by omega
        simp [hstale, h1', hc0]
  · have hne : ¬ (d.dependencyStaleCount - 1 = 0) := by omega
    cases changed with
    | true => simp [hstale, hne]
    | false => simp [hstale, hne]

theorem c2_notifyDependencyReady_spec_witness :
    notifyDependencyReady ⟨1, 0⟩ true true =
      Except.ok { state := ⟨0, 0⟩,
                  invokedOnDependenciesReady := true,
                  propagated := some true } := by
  have h := c2_notifyDependencyReady_spec ⟨1, 0⟩ true true (by norm_num) (by norm_num)
  simpa using h

/-- Claim C9: the dependency stale count never becomes negative:
notifyDependencyStale only increments it, and notifyDependencyReady
raises an invariant-violation error unless it is strictly positive, and
otherwise leaves it nonnegative after the decrement. -/
theorem c9_staleCount_nonneg (d : DerivCounters) (changed onReadyResult : Bool)
    (h : 0 ≤ d.dependencyStaleCount) :
    ((notifyDependencyStale d).1.dependencyStaleCount =
        d.dependencyStaleCount + 1 ∧
      0 ≤ (notifyDependencyStale d).1.dependencyStaleCount) ∧
    (d.dependencyStaleCount = 0 →
      notifyDependencyReady d changed onReadyResult =
        Except.error "unexpected ready notification") ∧
    (match notifyDependencyReady d changed onReadyResult with
     | Except.ok res => 0 ≤ res.state.dependencyStaleCount
     | Except.error _ => True) := by
  refine ⟨⟨rfl, by simp only [notifyDependencyStale]; omega⟩, ?_, ?_⟩
  · intro h0
    unfold notifyDependencyReady
    rw [if_neg (by omega)]
  · unfold notifyDependencyReady
    by_cases hpos : d.dependencyStaleCount > 0
    · rw [if_pos hpos]
      cases changed <;> simp <;> split_ifs <;> simp <;> omega
    · rw [if_neg hpos]
      exact trivial

/-- The global state of the runtime (core/globalstate.ts is not under
src/; the fields are the ones core/derivation.ts and core/reaction.ts
use: `isTracking`, `derivationStack` (modelled by its depth), `runId`,
`inTransaction`, `isRunningReactions`, `pendingReactions`). -/
structure MobxGlobals where
  isTracking : Bool
  derivationStackDepth : Nat
  runId : Nat
  inTransaction : Nat
  isRunningReactions : Bool
  pendingReactions : List Nat
  deriving Repr, DecidableEq

/-- Modelled from the spec: "`reset-global-state` restores factory
defaults" (core/globalstate.ts is not under src/). -/
def resetGlobalState : MobxGlobals :=
  { isTracking := false, derivationStackDepth := 0, runId := 0,
    inTransaction := 0, isRunningReactions := false, pendingReactions := [] }

/-- The error thrown by the convergence guard of `runReactions`; it names
the first offending reaction (`allReactions[0]`). -/
inductive ReactionError where
  | divergence (first : Nat)
  deriving Repr, DecidableEq

/-- core/reaction.ts: `const MAX_REACTION_ITERATIONS = 100`. -/
def MAX_REACTION_ITERATIONS : Nat := 100

/-- One drain pass of `runReactions`: the pending queue is spliced into a
local list and every reaction in it runs; running reaction `r` enqueues
the reactions `enq r` (the abstraction of `runReaction`'s effect). -/
def batchStep (enq : Nat → List Nat) (queue : List Nat) : List Nat :=
  (queue.map enq).flatten

/-- The `while (allReactions.length > 0)` loop of `runReactions`
(core/reaction.ts).  `fuel` is `MAX_REACTION_ITERATIONS - iterations - 1`:
the loop body may still run `fuel` more times; on entering a pass with the
queue non-empty and no fuel, `++iterations === MAX_REACTION_ITERATIONS`
and the divergence error is thrown naming the queue head.  Returns the
reactions run in order, the queue at exit, and the outcome. -/
def drainAux (enq : Nat → List Nat) :
    Nat → List Nat → List Nat × List Nat × Except ReactionError Unit
  | _, [] => ([], [], Except.ok ())
  | 0, r :: rs => ([], r :: rs, Except.error (ReactionError.divergence r))
  | fuel + 1, r :: rs =>
    let res := drainAux enq fuel (batchStep enq (r :: rs))
    ((r :: rs) ++ res.1, res.2.1, res.2.2)

/-- Embeds `runReactions()` from core/reaction.ts: no-op when the runner
is active or a transaction is open; otherwise drains the pending queue
with the 100-iteration divergence guard.  Returns the final global state,
the reactions run in order, and the outcome. -/
def runReactions (enq : Nat → List Nat) (g : MobxGlobals) :
    MobxGlobals × List Nat × Except ReactionError Unit :=
  if g.isRunningReactions = true ∨ g.inTransaction > 0 then
    (g, [], Except.ok ())
  else
    let res := drainAux enq (MAX_REACTION_ITERATIONS - 1) g.pendingReactions
    match res.2.2 with
    | Except.ok _ =>
      ({ g with pendingReactions := [], isRunningReactions := false },
        res.1, Except.ok ())
    | Except.error e =>
      ({ g with pendingReactions := res.2.1, isRunningReactions := true },
        res.1, Except.error e)

theorem batchStep_nil (enq : Nat → List Nat) : batchStep enq [] = [] := rfl

theorem drainAux_ok_iff (enq : Nat → List Nat) (fuel : Nat) (q : List Nat) :
    (drainAux enq fuel q).2.2 = Except.ok () ↔
      (batchStep enq)^[fuel] q = [] := by
  induction fuel generalizing q with
  | zero =>
    cases q with
    | nil => simp [drainAux]
    | cons r rs => simp [drainAux]
  | succ n ih =>
    cases q with
    | nil =>
      simp [drainAux, Function.iterate_fixed (batchStep_nil enq) (n + 1)]
    | cons r rs =>
      show (drainAux enq n (batchStep enq (r :: rs))).2.2 = _ ↔ _
      rw [ih, Function.iterate_succ_apply]

theorem drainAux_error (enq : Nat → List Nat) (fuel : Nat) (q : List Nat)
    (r : Nat) (rest : List Nat) (h : (batchStep enq)^[fuel] q = r :: rest) :
    (drainAux enq fuel q).2.2 = Except.error (ReactionError.divergence r) ∧
    (drainAux enq fuel q).2.1 = r :: rest := by
  induction fuel generalizing q with
  | zero =>
    rw [Function.iterate_zero_apply] at h
    subst h
    exact ⟨rfl, rfl⟩
  | succ n ih =>
    cases q with
    | nil =>
      rw [Function.iterate_fixed (batchStep_nil enq) (n + 1)] at h
      cases h
    | cons a as =>
      rw [Function.iterate_succ_apply] at h
      exact ih (batchStep enq (a :: as)) h

theorem runReactions_outcome (enq : Nat → List Nat) (g : MobxGlobals)
    (hrun : g.isRunningReactions = false) (htx : g.inTransaction = 0) :
    (runReactions enq g).2.2 =
      (drainAux enq (MAX_REACTION_ITERATIONS - 1) g.pendingReactions).2.2 := by
  unfold runReactions
  rw [if_neg (by simp [hrun, htx])]
  cases hE : (drainAux enq (MAX_REACTION_ITERATIONS - 1) g.pendingReactions).2.2 with
  | ok u => cases u; simp [hE]
  | error e => simp [hE]

theorem c9_staleCount_nonneg_witness :
    ((notifyDependencyStale ⟨1, 2⟩).1.dependencyStaleCount =
        (DerivCounters.mk 1 2).dependencyStaleCount + 1 ∧
      0 ≤ (notifyDependencyStale ⟨1, 2⟩).1.dependencyStaleCount) ∧
    ((DerivCounters.mk 1 2).dependencyStaleCount = 0 →
      notifyDependencyReady ⟨1, 2⟩ false false =
        Except.error "unexpected ready notification") ∧
    (match notifyDependencyReady ⟨1, 2⟩ false false with
     | Except.ok res => 0 ≤ res.state.dependencyStaleCount
     | Except.error _ => True) :=
  c9_staleCount_nonneg ⟨1, 2⟩ false false (by norm_num)

/-- A self-retriggering chain: running reaction `k` schedules reaction
`k + 1`, up to reaction 99 which schedules nothing.  Starting from the
queue `[0]` this needs exactly 100 drain iterations to reach an empty
queue. -/
def c3Enq : Nat → List Nat := fun k => if k < 99 then [k + 1] else []

def c3G : MobxGlobals :=
  { isTracking := false, derivationStackDepth := 0, runId := 0,
    inTransaction := 0, isRunningReactions := false, pendingReactions := [0] }

set_option maxRecDepth 8000 in
/-- Counterexample to claim C3 as stated: this reaction chain converges in
exactly 100 drain iterations (so "at most 100"), yet `runReactions` fails
with the divergence error instead of completing — the guard fires when the
iteration counter reaches 100, not only when it exceeds 100. -/
theorem c3_counterexample :
    (batchStep c3Enq)^[100] ([0] : List Nat) = [] ∧
    (runReactions c3Enq c3G).2.2 =
      Except.error (ReactionError.divergence 99) := by
  constructor
  · rfl
  · rfl

/-- Claim C3 (amended): when reactions may run, `runReactions` completes
without error exactly when the pending queue drains within 99 iterations;
if after 99 passes the queue is still non-empty, it fails with the
divergence error naming the head of that queue (the guard fires as the
iteration counter reaches MAX_REACTION_ITERATIONS = 100, before the 100th
batch runs). -/
theorem c3_divergence_guard (enq : Nat → List Nat) (g : MobxGlobals)
    (r : Nat) (rest : List Nat)
    (hrun : g.isRunningReactions = false) (htx : g.inTransaction = 0) :
    ((runReactions enq g).2.2 = Except.ok () ↔
      (batchStep enq)^[MAX_REACTION_ITERATIONS - 1] g.pendingReactions = []) ∧
    ((batchStep enq)^[MAX_REACTION_ITERATIONS - 1] g.pendingReactions = r :: rest →
      (runReactions enq g).2.2 = Except.error (ReactionError.divergence r)) := by
  constructor
  · rw [runReactions_outcome enq g hrun htx]
    exact drainAux_ok_iff enq (MAX_REACTION_ITERATIONS - 1) g.pendingReactions
  · intro h
    rw [runReactions_outcome enq g hrun htx]
    exact (drainAux_error enq (MAX_REACTION_ITERATIONS - 1)
      g.pendingReactions r rest h).1

def c3WEnq : Nat → List Nat := fun _ => []

def c3WG : MobxGlobals :=
  { isTracking := false, derivationStackDepth := 0, runId := 0,
    inTransaction := 0, isRunningReactions := false, pendingReactions := [7] }

theorem c3_divergence_guard_witness :
    ((runReactions c3WEnq c3WG).2.2 = Except.ok () ↔
      (batchStep c3WEnq)^[MAX_REACTION_ITERATIONS - 1] c3WG.pendingReactions = []) ∧
    ((batchStep c3WEnq)^[MAX_REACTION_ITERATIONS - 1] c3WG.pendingReactions = 5 :: [] →
      (runReactions c3WEnq c3WG).2.2 = Except.error (ReactionError.divergence 5)) :=
  c3_divergence_guard c3WEnq c3WG 5 [] rfl rfl

/-- Claim C5: `runReactions` is a no-op — global state unchanged, no
reaction run, no error — whenever the runner is already active or a
transaction is open. -/
theorem c5_no_reactions_in_transaction (enq : Nat → List Nat) (g : MobxGlobals)
    (h : g.isRunningReactions = true ∨ 0 < g.inTransaction) :
    runReactions enq g = (g, [], Except.ok ()) := by
  unfold runReactions
  rw [if_pos h]

def c5WEnq : Nat → List Nat := fun _ => [3]

def c5WG : MobxGlobals :=
  { isTracking := false, derivationStackDepth := 0, runId := 0,
    inTransaction := 1, isRunningReactions := false, pendingReactions := [9] }

theorem c5_no_reactions_in_transaction_witness :
    runReactions c5WEnq c5WG = (c5WG, [], Except.ok ()) :=
  c5_no_reactions_in_transaction c5WEnq c5WG (Or.inr (by decide))

/-- The per-derivation fields touched by `trackDerivedFunction`
(core/derivation.ts, `IDerivation`). -/
structure TrackDeriv where
  observing : List Nat
  unboundDepsCount : Nat
  runId : Nat
  deriving Repr, DecidableEq

/-- Embeds `trackDerivedFunction(derivation, f)` from core/derivation.ts.
The tracked function `f` is abstracted by its outcome: `Except.ok accessed`
stands for a run that reported the observables `accessed` as observed (so
`observing` holds them and `unboundDepsCount` is their number, the
trimmed length), and `Except.error e` for a run that threw `e`.  On the
error path the catch block zeroes `unboundDepsCount`, restores `observing`
to the previous list, resets the global state and rethrows.  The
observer-set side of the success path is `bindDependencies` above. -/
def trackDerivedFunction {E : Type} (d : TrackDeriv) (g : MobxGlobals)
    (fnOutcome : Except E (List Nat)) :
    Except (E × TrackDeriv × MobxGlobals) (TrackDeriv × MobxGlobals) :=
  let prevObserving := d.observing
  let g1 : MobxGlobals := { g with runId := g.runId + 1, derivationStackDepth := g.derivationStackDepth + 1, isTracking := true }
  let d1 : TrackDeriv := { observing := [], unboundDepsCount := 0, runId := g.runId + 1 }
  match fnOutcome with
  | Except.ok accessed =>
    Except.ok
      ({ d1 with observing := accessed, unboundDepsCount := accessed.length },
        { g1 with isTracking := g.isTracking, derivationStackDepth := g1.derivationStackDepth - 1 })
  | Except.error e =>
    Except.error
      (e, { d1 with unboundDepsCount := 0, observing := prevObserving },
        resetGlobalState)

/-- Claim C4: if the tracked function throws inside trackDerivedFunction,
then unboundDepsCount is zeroed, observing is restored to its value before
the call (no observer registration leaks from the partial run), the global
state is reset, and the same exception is rethrown. -/
theorem c4_track_exception_rollback {E : Type} (d : TrackDeriv)
    (g : MobxGlobals) (e : E) :
    trackDerivedFunction d g (Except.error e) =
      Except.error
        (e,
          { observing := d.observing, unboundDepsCount := 0,
            runId := g.runId + 1 },
          resetGlobalState) := rfl

/-- core/derivation.ts `untrackedStart`: clear the tracking flag, return
the previous value. -/
def untrackedStart (g : MobxGlobals) : Bool × MobxGlobals :=
  (g.isTracking, { g with isTracking := false })

/-- core/derivation.ts `untrackedEnd`: restore a saved tracking flag. -/
def untrackedEnd (prev : Bool) (g : MobxGlobals) : MobxGlobals :=
  { g with isTracking := prev }

/-- Embeds `untracked(action)` from core/derivation.ts.  `action` is a
state transformer that either returns a value or throws; note the source
has no try/finally, so on a throw the exception propagates before
`untrackedEnd` runs. -/
def untracked {T E : Type} (g : MobxGlobals)
    (action : MobxGlobals → MobxGlobals × Except E T) :
    MobxGlobals × Except E T :=
  let pg := untrackedStart g
  let res := action pg.2
  match res.2 with
  | Except.ok t => (untrackedEnd pg.1 res.1, Except.ok t)
  | Except.error e => (res.1, Except.error e)

def c6G : MobxGlobals :=
  { isTracking := true, derivationStackDepth := 1, runId := 0,
    inTransaction := 0, isRunningReactions := false, pendingReactions := [] }

def c6Act : MobxGlobals → MobxGlobals × Except Unit Unit :=
  fun g => (g, Except.error ())

/-- Counterexample to claim C6 as stated: when fn throws, untracked does
not restore the previous is-tracking value (the source has no
try/finally).  Here the flag was true before the call, fn throws without
touching the state, and afterwards the flag is still false while the
exception propagates. -/
theorem c6_counterexample :
    c6G.isTracking = true ∧
    (untracked c6G c6Act).1.isTracking = false ∧
    (untracked c6G c6Act).2 = Except.error () :=
  ⟨rfl, rfl, rfl⟩

/-- Claim C6 (amended): untracked clears the is-tracking flag before
invoking fn and restores the previous value when fn returns normally;
when fn throws, the exception propagates and no restoration happens — for
an fn that leaves the flag as it found it, the flag remains cleared. -/
theorem c6_untracked_flag (g : MobxGlobals)
    (action : MobxGlobals → MobxGlobals × Except Unit Unit)
    (hpres : ∀ g2, ((action g2).1).isTracking = g2.isTracking) :
    ((untrackedStart g).2.isTracking = false ∧
      (untrackedStart g).1 = g.isTracking) ∧
    (match (untracked g action).2 with
     | Except.ok _ => (untracked g action).1.isTracking = g.isTracking
     | Except.error _ => (untracked g action).1.isTracking = false) := by
  refine ⟨⟨rfl, rfl⟩, ?_⟩
  have hact := hpres { g with isTracking := false }
  cases hres : (action { g with isTracking := false }).2 with
  | ok t => simp [untracked, untrackedStart, untrackedEnd, hres]
  | error e => simp [untracked, untrackedStart, untrackedEnd, hres, hact]

def c6WG : MobxGlobals :=
  { isTracking := true, derivationStackDepth := 0, runId := 3,
    inTransaction := 0, isRunningReactions := false, pendingReactions := [] }

def c6WAct : MobxGlobals → MobxGlobals × Except Unit Unit :=
  fun g => (g, Except.ok ())

theorem c6_untracked_flag_witness :
    ((untrackedStart c6WG).2.isTracking = false ∧
      (untrackedStart c6WG).1 = c6WG.isTracking) ∧
    (match (untracked c6WG c6WAct).2 with
     | Except.ok _ => (untracked c6WG c6WAct).1.isTracking = c6WG.isTracking
     | Except.error _ => (untracked c6WG c6WAct).1.isTracking = false) :=
  c6_untracked_flag c6WG c6WAct (fun _ => rfl)

/-- The fields of a `Reaction` (core/reaction.ts) relevant to disposal and
tracking. -/
structure ReactionState where
  observing : List Nat
  isDisposed : Bool
  isScheduledFlag : Bool
  isTrackPendingFlag : Bool
  isRunningFlag : Bool
  deriving Repr, DecidableEq

/-- Embeds `Reaction.dispose()` from core/reaction.ts: mark disposed; if
the reaction is not in the middle of a run, clear its observing list now
(removing it from every former dependency's observer set); if it is
running, the clear is deferred to the end of `track`. -/
def Reaction.dispose (r : ReactionState) (st : GState) : ReactionState × GState :=
  if r.isDisposed = false then
    if r.isRunningFlag = false then
      ({ r with isDisposed := true, observing := (clearObserving r.observing st).1 },
        (clearObserving r.observing st).2)
    else ({ r with isDisposed := true }, st)
  else (r, st)

/-- Embeds `Reaction.track(fn)` from core/reaction.ts: set the running
flag, run `fn` under `trackDerivedFunction` (abstracted by the list
`accessed` of observables it reports observed and by whether it calls
`dispose` on this reaction mid-run), rebind dependencies, clear the
running and track-pending flags, and, if the reaction was disposed during
the run, perform the deferred `clearObserving` now. -/
def Reaction.track (r : ReactionState) (st : GState) (accessed : List Nat)
    (fnCallsDispose : Bool) : ReactionState × GState :=
  let r0 : ReactionState := { r with isRunningFlag := true }
  let afterFn := if fnCallsDispose then Reaction.dispose r0 st else (r0, st)
  let st1 := bindDependencies r.observing accessed afterFn.2
  let r1 : ReactionState := { afterFn.1 with observing := accessed, isRunningFlag := false, isTrackPendingFlag := false }
  if r1.isDisposed = true then
    ({ r1 with observing := (clearObserving accessed st1).1 },
      (clearObserving accessed st1).2)
  else (r1, st1)

/-- Embeds `Reaction.runReaction()` from core/reaction.ts: a disposed
reaction does nothing; otherwise the scheduled flag is cleared, the
track-pending flag set, and `onInvalidate` invoked (abstracted as a state
transformer); the returned Bool records whether `onInvalidate` ran. -/
def Reaction.runReaction (r : ReactionState)
    (onInvalidate : ReactionState → ReactionState) : ReactionState × Bool :=
  if r.isDisposed = false then
    (onInvalidate { r with isScheduledFlag := false, isTrackPendingFlag := true }, true)
  else (r, false)

/-- Claim C8: dispose on an idle reaction clears its observing list and
removes it from each former dependency's observer set; dispose during a
run only marks the reaction disposed, and the clear happens at the end of
that run of track; runReaction on a disposed reaction does nothing. -/
theorem c8_dispose_lifecycle (r rMid rDis : ReactionState)
    (st stMid : GState) (accessed : List Nat)
    (onInvalidate : ReactionState → ReactionState) (a : Nat)
    (h1 : r.isDisposed = false) (h2 : r.isRunningFlag = false)
    (hobs : ∀ x, (st x).hasD = true ↔ x ∈ r.observing)
    (hdv : ∀ x, (st x).diffValue = 0)
    (h3 : rMid.isDisposed = false) (h4 : rMid.isRunningFlag = true)
    (h5 : rDis.isDisposed = true) :
    ((Reaction.dispose r st).1.observing = [] ∧
      (Reaction.dispose r st).1.isDisposed = true ∧
      ((Reaction.dispose r st).2 a).hasD = false) ∧
    (Reaction.dispose rMid stMid = ({ rMid with isDisposed := true }, stMid)) ∧
    ((Reaction.track r st accessed true).1.observing = [] ∧
      (Reaction.track r st accessed true).1.isDisposed = true ∧
      ((Reaction.track r st accessed true).2 a).hasD = false) ∧
    (Reaction.runReaction rDis onInvalidate = (rDis, false)) := by
  have hobs1 : ∀ x, ((bindDependencies r.observing accessed st) x).hasD = true ↔
      x ∈ accessed :=
    bindDependencies_hasD_iff r.observing accessed st (fun y _ _ => hdv y) hobs
  refine ⟨⟨?_, ?_, ?_⟩, ?_, ⟨?_, ?_, ?_⟩, ?_⟩
  · simp [Reaction.dispose, h1, h2, clearObserving]
  · simp [Reaction.dispose, h1, h2]
  · simp only [Reaction.dispose, h1, h2, if_true]
    exact clearObserving_hasD r.observing st hobs a
  · simp [Reaction.dispose, h3, h4]
  · simp [Reaction.track, Reaction.dispose, h1, clearObserving]
  · simp [Reaction.track, Reaction.dispose, h1, clearObserving]
  · simp only [Reaction.track, Reaction.dispose, h1, if_true]
    exact clearObserving_hasD accessed (bindDependencies r.observing accessed st)
      hobs1 a
  · simp [Reaction.runReaction, h5]

def c8R : ReactionState :=
  { observing := [4], isDisposed := false, isScheduledFlag := false,
    isTrackPendingFlag := false, isRunningFlag := false }

def c8St : GState := fun x => ⟨0, decide (x = 4)⟩

def c8RMid : ReactionState :=
  { observing := [], isDisposed := false, isScheduledFlag := false,
    isTrackPendingFlag := false, isRunningFlag := true }

def c8StMid : GState := fun _ => ⟨0, false⟩

def c8RDis : ReactionState :=
  { observing := [], isDisposed := true, isScheduledFlag := false,
    isTrackPendingFlag := false, isRunningFlag := false }

theorem c8_dispose_lifecycle_witness :
    ((Reaction.dispose c8R c8St).1.observing = [] ∧
      (Reaction.dispose c8R c8St).1.isDisposed = true ∧
      ((Reaction.dispose c8R c8St).2 4).hasD = false) ∧
    (Reaction.dispose c8RMid c8StMid = ({ c8RMid with isDisposed := true }, c8StMid)) ∧
    ((Reaction.track c8R c8St [5] true).1.observing = [] ∧
      (Reaction.track c8R c8St [5] true).1.isDisposed = true ∧
      ((Reaction.track c8R c8St [5] true).2 4).hasD = false) ∧
    (Reaction.runReaction c8RDis id = (c8RDis, false)) :=
  c8_dispose_lifecycle c8R c8RMid c8RDis c8St c8StMid [5] id 4 rfl rfl
    (fun x => by simp [c8St, c8R]) (fun _ => rfl) rfl rfl rfl

/-- The state shared by `Reaction.schedule` and the reaction runner: the
per-reaction `_isScheduled` flags and the global `pendingReactions`
queue (core/reaction.ts and core/globalstate.ts). -/
structure SchedState where
  isScheduledFlags : Nat → Bool
  pendingReactions : List Nat

/-- Embeds `Reaction.schedule()` from core/reaction.ts: push onto the
pending queue only when the scheduled flag is clear, setting the flag in
the same step.  (The `runReactions()` call it then makes only splices the
queue; see `runReactions`.) -/
def Reaction.schedule (s : SchedState) (i : Nat) : SchedState :=
  if s.isScheduledFlags i = false then
    { isScheduledFlags := fun x => if x = i then true else s.isScheduledFlags x,
      pendingReactions := s.pendingReactions ++ [i] }
  else s

/-- The `allReactions.splice(0)` step of `runReactions`: empties the
pending queue, returning its previous contents. -/
def spliceAllPending (s : SchedState) : List Nat × SchedState :=
  (s.pendingReactions, { s with pendingReactions := [] })

/-- The `this._isScheduled = false` step at the start of
`Reaction.runReaction()` for reaction `i` — which at that point has
already been spliced out of the queue. -/
def Reaction.clearScheduledFlag (s : SchedState) (i : Nat) : SchedState :=
  { s with isScheduledFlags := fun x => if x = i then false else s.isScheduledFlags x }

/-- At-most-once invariant for reaction `k`: it occurs at most once in the
pending queue, and not at all unless its scheduled flag is set. -/
def SchedInvariantAt (s : SchedState) (k : Nat) : Prop :=
  s.pendingReactions.count k ≤ 1 ∧
  (s.isScheduledFlags k = false → k ∉ s.pendingReactions)

/-- Claim C10: a reaction occurs at most once in the pending queue at any
time: schedule pushes only when the flag is clear and sets it in the same
step; splicing empties the queue; and clearing the flag inside runReaction
happens only after the reaction was spliced out. -/
theorem c10_schedule_at_most_once (s : SchedState) (i j k : Nat)
    (hinv : ∀ m, SchedInvariantAt s m)
    (hj : j ∉ s.pendingReactions) :
    SchedInvariantAt (Reaction.schedule s i) k ∧
    SchedInvariantAt (spliceAllPending s).2 k ∧
    SchedInvariantAt (Reaction.clearScheduledFlag s j) k := by
  refine ⟨?_, ?_, ?_⟩
  · unfold Reaction.schedule
    by_cases hi : s.isScheduledFlags i = false
    · rw [if_pos hi]
      constructor
      · show (s.pendingReactions ++ [i]).count k ≤ 1
        rw [List.count_append]
        by_cases hk : k = i
        · subst hk
          have h0 : s.pendingReactions.count k = 0 :=
            List.count_eq_zero.mpr ((hinv k).2 hi)
          simp [h0]
        · have h0 : ([i] : List Nat).count k = 0 := by
            simp [List.count_eq_zero, hk]
          have h1 := (hinv k).1
          omega
      · intro hflag
        by_cases hk : k = i
        · subst hk; simp at hflag
        · have hks : s.isScheduledFlags k = false := by
            simpa [hk] using hflag
          have hnm := (hinv k).2 hks
          simp [List.mem_append, hnm, hk]
    · rw [if_neg hi]; exact hinv k
  · exact ⟨by simp [spliceAllPending], fun _ => by simp [spliceAllPending]⟩
  · constructor
    · exact (hinv k).1
    · intro hflag
      by_cases hk : k = j
      · subst hk; exact hj
      · exact (hinv k).2 (by simpa [Reaction.clearScheduledFlag, hk] using hflag)

def c10S : SchedState := { isScheduledFlags := fun _ => false, pendingReactions := [] }

theorem c10_schedule_at_most_once_witness :
    SchedInvariantAt (Reaction.schedule c10S 0) 0 ∧
    SchedInvariantAt (spliceAllPending c10S).2 0 ∧
    SchedInvariantAt (Reaction.clearScheduledFlag c10S 1) 0 :=
  c10_schedule_at_most_once c10S 0 1 0
    (fun m => ⟨by simp [c10S], fun _ => by simp [c10S]⟩)
    (by simp [c10S])
